import Mathlib

/-!
Verification development for the dentistfriend clinic-management application.

The Python source is shallowly embedded: strings are lists of Unicode code
points (`List Nat`) with ASCII case rules, numeric amounts are exact
rationals (`ℚ`), calendar arithmetic is carried as integer day counts, the
Firestore document store is an association list from document id to record,
and Streamlit session state is passed explicitly.
-/

namespace DentistFriend

/-! ## String model

Python `str` values are modelled as lists of Unicode code points.  Case
conversion (`str.lower`, `str.capitalize`) follows the ASCII rules, which is
what the repository's item names exercise. -/

/-- Whitespace code points recognised by Python's `str.split()` with no
argument: space, tab, newline, vertical tab, form feed, carriage return. -/
def isSpaceChar (c : Nat) : Bool :=
  c = 32 || c = 9 || c = 10 || c = 11 || c = 12 || c = 13

/-- ASCII model of Python `str.lower` on a single code point. -/
def lowerChar (c : Nat) : Nat := if 65 ≤ c ∧ c ≤ 90 then c + 32 else c

/-- ASCII model of Python `str.upper` on a single code point. -/
def upperChar (c : Nat) : Nat := if 97 ≤ c ∧ c ≤ 122 then c - 32 else c

/-- Python `str.lower`. -/
def pyLower (s : List Nat) : List Nat := s.map lowerChar

/-- Python `str.capitalize`: upper-case the first character and lower-case
the rest. -/
def pyCapitalize : List Nat → List Nat
  | [] => []
  | c :: rest => upperChar c :: pyLower rest

/-- Helper for `splitWS`: scans the string, accumulating the current word in
reverse in `acc`. -/
def splitWSAux : List Nat → List Nat → List (List Nat)
  | [], acc => if acc.isEmpty then [] else [acc.reverse]
  | c :: rest, acc =>
    if isSpaceChar c then
      if acc.isEmpty then splitWSAux rest []
      else acc.reverse :: splitWSAux rest []
    else splitWSAux rest (c :: acc)

/-- Python `str.split()` with no argument: splits on runs of whitespace and
returns no empty words. -/
def splitWS (s : List Nat) : List (List Nat) := splitWSAux s []

/-- Python `" ".join(words)`. -/
def joinSpace : List (List Nat) → List Nat
  | [] => []
  | [w] => w
  | w :: ws => w ++ 32 :: joinSpace ws

/-- Converts a Lean string literal into the code-point model, for readable
concrete test inputs. -/
def strOf (s : String) : List Nat := s.data.map Char.toNat

/-- The per-word transformation of `format_item_name`
(src/app/pages/2_Inventory.py line 23):
`word.capitalize() if word == word.lower() else word`. -/
def fmtWord (w : List Nat) : List Nat := if w = pyLower w then pyCapitalize w else w

/-- `format_item_name` (src/app/pages/2_Inventory.py lines 16-24): split the
name on whitespace, capitalize each word that equals its own lower-casing,
keep every other word verbatim, and re-join with single spaces. -/
def format_item_name (s : List Nat) : List Nat :=
  joinSpace ((splitWS s).map fmtWord)

/-! ## Inventory model

The per-doctor Firestore `stock` collection is an association list from
document id (a string key) to the stored record.  Expiry dates travel as
their `"%Y-%m-%d"` strings, exactly as the source passes them around. -/

/-- The slug step of key derivation:
`formatted_name.lower().replace(' ', '_')` (src/app/pages/2_Inventory.py
line 656). -/
def slug (s : List Nat) : List Nat :=
  (pyLower s).map (fun c => if c = 32 then 95 else c)

/-- Derived inventory document id
`f"{formatted_name.lower().replace(' ', '_')}_{expiry_string}"`. -/
def item_key (formattedName expiry : List Nat) : List Nat :=
  slug formattedName ++ 95 :: expiry

/-- One stored stock record, with the fields written by `store_stock`
(src/app/pages/2_Inventory.py lines 115-120). -/
structure StockItem where
  quantity : Nat
  expiry_date : List Nat
  low_threshold : Nat
  display_name : List Nat
deriving DecidableEq, Repr

/-- The doctor's stock collection as an association list keyed by document
id. -/
abbrev Inventory : Type := List (List Nat × StockItem)

/-- First-match association lookup, modelling both Python `dict` access and
Firestore document lookup by id. -/
def alookup {β : Type} : List (List Nat × β) → List Nat → Option β
  | [], _ => none
  | (a, b) :: rest, k => if a = k then some b else alookup rest k

/-- Firestore `document(k).set(v)`: replace the record at key `k` in place,
creating it when absent. -/
def setKey (inv : Inventory) (k : List Nat) (v : StockItem) : Inventory :=
  if (alookup inv k).isSome then
    inv.map (fun p => if p.1 = k then (k, v) else p)
  else inv ++ [(k, v)]

/-- Firestore `document(k).delete()`. -/
def removeKey (inv : Inventory) (k : List Nat) : Inventory :=
  inv.filter (fun p => p.1 ≠ k)

/-- Interactive add (`add_items` + `store_stock`,
src/app/pages/2_Inventory.py lines 642-669 and 106-121): requires a
non-empty name, formats it, derives the key, rejects when the key already
exists, and otherwise creates the record.  Returns the resulting inventory
and whether a record was created. -/
def add_items (inv : Inventory) (raw_item_name : List Nat) (item_quantity : Nat)
    (expiry_string : List Nat) (low_threshold : Nat) : Inventory × Bool :=
  if raw_item_name = [] then (inv, false)
  else
    let formatted_name := format_item_name raw_item_name
    let item_id := item_key formatted_name expiry_string
    if (alookup inv item_id).isSome then (inv, false)
    else (inv ++ [(item_id, ⟨item_quantity, expiry_string, low_threshold, formatted_name⟩)], true)

/-- `handle_item_editing` (src/app/pages/2_Inventory.py lines 736-794): the
save-changes path.  The display name is taken from the stored record and
kept as-is; the new key is derived from it and the new expiry.  If the key
changes and the new key exists, the edit is rejected; if it changes and is
free, the new record is written and the old key deleted; otherwise the
record is rewritten in place. -/
def handle_item_editing (inv : Inventory) (edit_item : List Nat) (new_quantity : Nat)
    (new_expiry : List Nat) (new_threshold : Nat) : Inventory × Bool :=
  match alookup inv edit_item with
  | none => (inv, false)
  | some item_details =>
    let base_name := item_details.display_name
    let new_item_id := item_key base_name new_expiry
    if new_item_id ≠ edit_item then
      if (alookup inv new_item_id).isSome then (inv, false)
      else
        (removeKey (setKey inv new_item_id ⟨new_quantity, new_expiry, new_threshold, base_name⟩)
          edit_item, true)
    else (setKey inv edit_item ⟨new_quantity, new_expiry, new_threshold, base_name⟩, true)

/-! ## Inventory status classification and listing order -/

/-- The five status tags assigned in `show_inventory`
(src/app/pages/2_Inventory.py lines 546-554). -/
inductive Status
  | Normal
  | ExpiringSoon
  | LowStock
  | Expired
  | OutOfStock
deriving DecidableEq, Repr

/-- The status computation of `show_inventory` (src/app/pages/2_Inventory.py
lines 546-554): a chain of unconditional `if` statements overwriting the
`status` variable, so the last matching test wins. -/
def item_status (quantity threshold : Nat) (days_until_expiry : ℤ) : Status :=
  let s := Status.Normal
  let s := if days_until_expiry ≤ 30 then Status.ExpiringSoon else s
  let s := if quantity ≤ threshold then Status.LowStock else s
  let s := if days_until_expiry ≤ 0 then Status.Expired else s
  if quantity = 0 then Status.OutOfStock else s

/-- The classification as the specification words it: `OutOfStock` if
`quantity == 0`, else `Expired` if `days_until_expiry <= 0`, else `LowStock`
if `quantity <= threshold`, else `ExpiringSoon` if `days_until_expiry <=
30`, else `Normal`. -/
def item_status_spec (quantity threshold : Nat) (days_until_expiry : ℤ) : Status :=
  if quantity = 0 then Status.OutOfStock
  else if days_until_expiry ≤ 0 then Status.Expired
  else if quantity ≤ threshold then Status.LowStock
  else if days_until_expiry ≤ 30 then Status.ExpiringSoon
  else Status.Normal

/-- `status_priority` (src/app/pages/2_Inventory.py lines 565-567). -/
def status_priority : Status → Nat
  | Status.Expired => 0
  | Status.OutOfStock => 1
  | Status.LowStock => 2
  | Status.ExpiringSoon => 3
  | Status.Normal => 4

/-- One row of the `show_inventory` listing, reduced to the fields the
status and sort depend on. -/
structure InvRecord where
  quantity : Nat
  threshold : Nat
  days_until_expiry : ℤ
deriving DecidableEq, Repr

/-- The status tag of a listing row. -/
def recStatus (r : InvRecord) : Status :=
  item_status r.quantity r.threshold r.days_until_expiry

/-- The comparison used by `sort_values("Status Priority")`. -/
def prioLE (a b : InvRecord) : Prop :=
  status_priority (recStatus a) ≤ status_priority (recStatus b)

instance : DecidableRel prioLE := fun _ _ => Nat.decLe _ _

instance : IsTotal InvRecord prioLE := ⟨fun _ _ => Nat.le_total _ _⟩

instance : IsTrans InvRecord prioLE := ⟨fun _ _ _ => Nat.le_trans⟩

/-- The listing order of `show_inventory`
(src/app/pages/2_Inventory.py lines 565-570): rows sorted ascending by
`status_priority`. -/
def show_inventory_sorted (l : List InvRecord) : List InvRecord :=
  List.insertionSort prioLE l

/-! ## Treatment plan model -/

/-- One treatment-plan entry, with the fields written at creation
(src/app/pages/1_Treatment.py lines 323-332).  The bulk-update path of the
management form rewrites entries without a `Condition` field, hence the
`Option`. -/
structure TreatmentEntry where
  tooth : List Nat
  condition : Option (List Nat)
  procedure : List Nat
  cost : ℚ
  status : List Nat
  start_date : List Nat
deriving DecidableEq, Repr

/-- The add-procedure form handler (src/app/pages/1_Treatment.py lines
303-338): rejects a duplicate `(tooth, procedure)` pair, otherwise appends
a new entry priced from `price_estimates` (default 0), with status
`"Pending"` and start date today.  Returns the resulting plan and whether
an entry was added. -/
def add_procedure (treatment_record : List TreatmentEntry)
    (price_estimates : List (List Nat × ℚ)) (tooth_identifier treatment_procedure
    tooth_condition today_str : List Nat) : List TreatmentEntry × Bool :=
  let existing_procedures := treatment_record.filter
    (fun item => item.tooth == tooth_identifier && item.procedure == treatment_procedure)
  if existing_procedures.isEmpty then
    let procedure_price := (alookup price_estimates treatment_procedure).getD 0
    (treatment_record ++
      [⟨tooth_identifier, some tooth_condition, treatment_procedure, procedure_price,
        strOf "Pending", today_str⟩], true)
  else (treatment_record, false)

/-- The management-form state for one plan row: the values stored in
Streamlit session state under `procedure_{key_id}`, `start_date_{key_id}`
and `status_{key_id}`.  The status selectbox is commented out in the source
(src/app/pages/1_Treatment.py lines 399-406), so no `status_{key_id}` key is
ever created: that field is `none` for every row the page produces. -/
structure RowForm where
  procedure : List Nat
  start_date : List Nat
  status : Option (List Nat)
deriving DecidableEq, Repr

/-- The bulk-update submission handler (src/app/pages/1_Treatment.py lines
438-479), processing rows in order with their running index: deleted
indices are skipped; each survivor is rebuilt from the form state, re-priced
only when the procedure changed (default: keep the stored cost), and its
status is read from `st.session_state[f"status_{key_id}"]` — a lookup that
raises `KeyError` when the key is absent, modelled by `Except.error`. -/
def bulk_update_go (price_estimates : List (List Nat × ℚ)) (procedures_to_delete : List Nat) :
    Nat → List (TreatmentEntry × RowForm) → Except Unit (List TreatmentEntry)
  | _, [] => Except.ok []
  | i, (item, form) :: rest =>
    if i ∈ procedures_to_delete then
      bulk_update_go price_estimates procedures_to_delete (i + 1) rest
    else
      let new_procedure := form.procedure
      let procedure_price :=
        if new_procedure ≠ item.procedure then
          (alookup price_estimates new_procedure).getD item.cost
        else item.cost
      match form.status with
      | none => Except.error ()
      | some status_value =>
        match bulk_update_go price_estimates procedures_to_delete (i + 1) rest with
        | Except.error e => Except.error e
        | Except.ok tail =>
          Except.ok (⟨item.tooth, none, new_procedure, procedure_price, status_value,
            form.start_date⟩ :: tail)

/-- `bulk_update`: the whole submission, starting at row index 0. -/
def bulk_update (rows : List (TreatmentEntry × RowForm))
    (price_estimates : List (List Nat × ℚ)) (procedures_to_delete : List Nat) :
    Except Unit (List TreatmentEntry) :=
  bulk_update_go price_estimates procedures_to_delete 0 rows

/-! ## Cost engine -/

/-- The four figures computed in the cost-summary tab. -/
structure CostSummary where
  total_price : ℚ
  discount_calculation : ℚ
  tax_calculation : ℚ
  final_calculation : ℚ
deriving DecidableEq, Repr

/-- The cost computation (src/app/pages/1_Treatment.py lines 668-676):
`total_price = sum(item["Cost"] ...)`,
`tax_calculation = total_price * 0.15 if tax_apply else 0`,
`discount_calculation = min(discount_amount, total_price)`,
`final_calculation = total_price - discount_calculation + tax_calculation`.
Numeric values are modelled as exact rationals. -/
def cost_summary (treatment_record : List TreatmentEntry) (discount_amount : ℚ)
    (tax_apply : Bool) : CostSummary :=
  let total_price := (treatment_record.map TreatmentEntry.cost).sum
  let tax_calculation := if tax_apply then total_price * (15 / 100) else 0
  let discount_calculation := min discount_amount total_price
  ⟨total_price, discount_calculation, tax_calculation,
    total_price - discount_calculation + tax_calculation⟩

/-! ## Expiry-alert state machine

`display_alerts` (src/app/pages/2_Inventory.py lines 246-351) keeps a
transient `email_alert_sent` flag.  One page run with given alert conditions
is an `evaluate` event; every inventory or alert-settings mutation in the
source resets the flag (lines 384, 415, 665, 777, 790, 801) and is a
`mutate` event.  The email transport is an external collaborator and is
modelled as succeeding. -/

inductive AlertEvent
  | evaluate (expiringNonempty alertsEnabled emailConfigured : Bool)
  | mutate
deriving DecidableEq, Repr

/-- One step of the alert state machine: given the current
`email_alert_sent` flag and an event, returns the new flag and whether an
automatic email was sent.  Mirrors src/app/pages/2_Inventory.py lines
323-332 (the send gate) and 349-351 (the reset when no items are near
expiry). -/
def display_alerts_step (email_alert_sent : Bool) : AlertEvent → Bool × Bool
  | AlertEvent.evaluate ne en em =>
    if ne && en && !email_alert_sent && em then (true, true)
    else if !ne then (false, false)
    else (email_alert_sent, false)
  | AlertEvent.mutate => (false, false)

/-- Runs a sequence of alert events, returning the final flag and the total
number of automatic sends. -/
def runAlerts (email_alert_sent : Bool) : List AlertEvent → Bool × Nat
  | [] => (email_alert_sent, 0)
  | e :: es =>
    let step := display_alerts_step email_alert_sent e
    let rest := runAlerts step.1 es
    (rest.1, (if step.2 then 1 else 0) + rest.2)

/-! ## Helper lemmas about the string model -/

lemma pyLower_eq_self_of_no_upper {w : List Nat} (h : ∀ c ∈ w, ¬(65 ≤ c ∧ c ≤ 90)) :
    pyLower w = w := by
  induction w with
  | nil => rfl
  | cons c rest ih =>
    have hc : ¬(65 ≤ c ∧ c ≤ 90) := h c (List.mem_cons_self c rest)
    simp only [pyLower, List.map_cons, lowerChar, if_neg hc, List.cons.injEq, true_and]
    exact ih fun x hx => h x (List.mem_cons_of_mem c hx)

lemma pyLower_ne_self_of_upper {w : List Nat} (h : ∃ c ∈ w, 65 ≤ c ∧ c ≤ 90) :
    pyLower w ≠ w := by
  induction w with
  | nil => simp at h
  | cons c rest ih =>
    intro heq
    simp only [pyLower, List.map_cons, List.cons.injEq] at heq
    rcases h with ⟨x, hx, hup⟩
    rcases List.mem_cons.1 hx with rfl | hmem
    · have hlc : lowerChar x = x + 32 := by simp [lowerChar, hup]
      rw [hlc] at heq
      omega
    · exact ih ⟨x, hmem, hup⟩ heq.2

lemma not_space_of_lowerChar {c : Nat} (h : isSpaceChar c = false) :
    isSpaceChar (lowerChar c) = false := by
  by_cases hc : 65 ≤ c ∧ c ≤ 90
  · simp only [lowerChar, if_pos hc, isSpaceChar]
    simp only [Bool.or_eq_false_iff, decide_eq_false_iff_not]
    omega
  · simpa [lowerChar, if_neg hc] using h

lemma not_space_of_upperChar {c : Nat} (h : isSpaceChar c = false) :
    isSpaceChar (upperChar c) = false := by
  by_cases hc : 97 ≤ c ∧ c ≤ 122
  · simp only [upperChar, if_pos hc, isSpaceChar]
    simp only [Bool.or_eq_false_iff, decide_eq_false_iff_not]
    omega
  · simpa [upperChar, if_neg hc] using h

lemma splitWSAux_append_word {w : List Nat} (hw : ∀ c ∈ w, isSpaceChar c = false) :
    ∀ (s acc : List Nat), splitWSAux (w ++ s) acc = splitWSAux s (w.reverse ++ acc) := by
  induction w with
  | nil => intro s acc; simp
  | cons c rest ih =>
    intro s acc
    have hc : isSpaceChar c = false := hw c (List.mem_cons_self c rest)
    have hrest : ∀ x ∈ rest, isSpaceChar x = false := fun x hx => hw x (List.mem_cons_of_mem c hx)
    have hstep : splitWSAux (c :: (rest ++ s)) acc = splitWSAux (rest ++ s) (c :: acc) := by
      simp [splitWSAux, hc]
    rw [List.cons_append, hstep, ih hrest s (c :: acc)]
    simp

lemma splitWS_word {w : List Nat} (hne : w ≠ []) (hw : ∀ c ∈ w, isSpaceChar c = false) :
    splitWS w = [w] := by
  have := splitWSAux_append_word hw [] []
  simp only [List.append_nil] at this
  rw [splitWS, this]
  simp only [splitWSAux]
  rw [if_neg]
  · simp
  · simp [List.isEmpty_iff, hne]

lemma splitWS_join {ws : List (List Nat)}
    (h : ∀ w ∈ ws, w ≠ [] ∧ ∀ c ∈ w, isSpaceChar c = false) :
    splitWS (joinSpace ws) = ws := by
  induction ws with
  | nil => rfl
  | cons w ws ih =>
    cases ws with
    | nil =>
      have hw := h w (List.mem_cons_self w [])
      exact splitWS_word hw.1 hw.2
    | cons w2 ws2 =>
      have hw := h w (List.mem_cons_self w _)
      have htail : ∀ x ∈ w2 :: ws2, x ≠ [] ∧ ∀ c ∈ x, isSpaceChar c = false :=
        fun x hx => h x (List.mem_cons_of_mem w hx)
      have hjoin : joinSpace (w :: w2 :: ws2) = w ++ 32 :: joinSpace (w2 :: ws2) := rfl
      rw [hjoin, splitWS, splitWSAux_append_word hw.2]
      simp only [List.append_nil, splitWSAux]
      have hsp : isSpaceChar 32 = true := rfl
      rw [if_pos hsp, if_neg, List.reverse_reverse]
      · exact congrArg (w :: ·) (ih htail)
      · simp [List.isEmpty_iff, hw.1]

lemma splitWSAux_words : ∀ (s acc : List Nat), (∀ c ∈ acc, isSpaceChar c = false) →
    ∀ w ∈ splitWSAux s acc, w ≠ [] ∧ ∀ c ∈ w, isSpaceChar c = false := by
  intro s
  induction s with
  | nil =>
    intro acc hacc w hw
    simp only [splitWSAux] at hw
    split at hw
    · simp at hw
    · next hne =>
      simp only [List.mem_singleton] at hw
      subst hw
      refine ⟨by simpa [List.isEmpty_iff] using hne, ?_⟩
      intro c hc
      exact hacc c (List.mem_reverse.1 hc)
  | cons c rest ih =>
    intro acc hacc w hw
    simp only [splitWSAux] at hw
    split at hw
    · split at hw
      · exact ih [] (by simp) w hw
      · next hne =>
        rcases List.mem_cons.1 hw with rfl | hmem
        · refine ⟨by simpa [List.isEmpty_iff] using hne, ?_⟩
          intro x hx
          exact hacc x (List.mem_reverse.1 hx)
        · exact ih [] (by simp) w hmem
    · next hcs =>
      refine ih (c :: acc) ?_ w hw
      intro x hx
      rcases List.mem_cons.1 hx with rfl | hmem
      · simpa using hcs
      · exact hacc x hmem

lemma splitWS_words {s : List Nat} :
    ∀ w ∈ splitWS s, w ≠ [] ∧ ∀ c ∈ w, isSpaceChar c = false :=
  splitWSAux_words s [] (by simp)

lemma fmtWord_ne_nil {w : List Nat} (h : w ≠ []) : fmtWord w ≠ [] := by
  unfold fmtWord
  split
  · cases w with
    | nil => exact absurd rfl h
    | cons c rest => simp [pyCapitalize]
  · exact h

lemma fmtWord_no_space {w : List Nat} (h : ∀ c ∈ w, isSpaceChar c = false) :
    ∀ c ∈ fmtWord w, isSpaceChar c = false := by
  unfold fmtWord
  split
  · cases w with
    | nil => simp [pyCapitalize]
    | cons c rest =>
      intro x hx
      simp only [pyCapitalize, List.mem_cons] at hx
      rcases hx with rfl | hx
      · exact not_space_of_upperChar (h c (List.mem_cons_self c rest))
      · rcases List.mem_map.1 hx with ⟨y, hy, rfl⟩
        exact not_space_of_lowerChar (h y (List.mem_cons_of_mem c hy))
  · exact h

lemma fmtWord_eq_cap {w : List Nat} (h : w = pyLower w) : fmtWord w = pyCapitalize w := by
  unfold fmtWord
  exact if_pos h

lemma fmtWord_eq_self {w : List Nat} (h : ¬w = pyLower w) : fmtWord w = w := by
  unfold fmtWord
  exact if_neg h

lemma fmtWord_idem (w : List Nat) : fmtWord (fmtWord w) = fmtWord w := by
  by_cases h : w = pyLower w
  · rw [fmtWord_eq_cap h]
    cases w with
    | nil => decide
    | cons c rest =>
      have hc2 : rest = pyLower rest := by
        have h' := h
        simp only [pyLower, List.map_cons, List.cons.injEq] at h'
        exact h'.2
      by_cases hl : 97 ≤ c ∧ c ≤ 122
      · have hcap : pyCapitalize (c :: rest) = (c - 32) :: pyLower rest := by
          simp [pyCapitalize, upperChar, hl]
        rw [hcap]
        apply fmtWord_eq_self
        intro heq
        simp only [pyLower, List.map_cons, List.cons.injEq] at heq
        have hlc : lowerChar (c - 32) = (c - 32) + 32 := by
          simp only [lowerChar]
          rw [if_pos]
          omega
        rw [hlc] at heq
        have h1 := heq.1
        omega
      · have hup : upperChar c = c := by simp [upperChar, hl]
        have hcap : pyCapitalize (c :: rest) = c :: rest := by
          simp only [pyCapitalize, hup, List.cons.injEq, true_and]
          exact hc2.symm
        rw [hcap, fmtWord_eq_cap h, hcap]
  · rw [fmtWord_eq_self h, fmtWord_eq_self h]

lemma format_words_good (s : List Nat) :
    ∀ w ∈ (splitWS s).map fmtWord, w ≠ [] ∧ ∀ c ∈ w, isSpaceChar c = false := by
  intro w hw
  rcases List.mem_map.1 hw with ⟨v, hv, rfl⟩
  have hg := splitWS_words v hv
  exact ⟨fmtWord_ne_nil hg.1, fmtWord_no_space hg.2⟩

lemma splitWS_format (s : List Nat) :
    splitWS (format_item_name s) = (splitWS s).map fmtWord := by
  unfold format_item_name
  exact splitWS_join (format_words_good s)

/-! ## Helper lemmas about the association-list store -/

lemma alookup_append_of_none {β : Type} {k : List Nat} {xs ys : List (List Nat × β)}
    (h : alookup xs k = none) : alookup (xs ++ ys) k = alookup ys k := by
  induction xs with
  | nil => rfl
  | cons p rest ih =>
    rcases p with ⟨a, b⟩
    rw [List.cons_append]
    simp only [alookup] at h ⊢
    by_cases hak : a = k
    · rw [if_pos hak] at h
      exact absurd h (by simp)
    · rw [if_neg hak] at h ⊢
      exact ih h

lemma alookup_singleton_self {β : Type} (k : List Nat) (v : β) :
    alookup [(k, v)] k = some v := by
  simp [alookup]

lemma alookup_map_replace {k : List Nat} {v : StockItem} (inv : Inventory) :
    alookup (inv.map fun p => if p.1 = k then (k, v) else p) k
      = if (alookup inv k).isSome then some v else none := by
  induction inv with
  | nil => rfl
  | cons p rest ih =>
    rcases p with ⟨a, b⟩
    by_cases hak : a = k
    · subst hak
      have happ : (if (a, b).1 = a then (a, v) else (a, b)) = (a, v) := by simp
      rw [List.map_cons, happ]
      simp [alookup, ih]
    · have happ : (if (a, b).1 = k then (k, v) else (a, b)) = (a, b) := by simp [hak]
      rw [List.map_cons, happ]
      simp only [alookup, if_neg hak]
      exact ih

lemma keys_setKey_present {k : List Nat} {v : StockItem} {inv : Inventory}
    (h : (alookup inv k).isSome) :
    (setKey inv k v).map Prod.fst = inv.map Prod.fst := by
  unfold setKey
  rw [if_pos h, List.map_map]
  refine List.map_congr_left fun p _ => ?_
  by_cases hp : p.1 = k
  · simp [hp]
  · simp [hp]

lemma alookup_setKey_self {k : List Nat} {v : StockItem} (inv : Inventory) :
    alookup (setKey inv k v) k = some v := by
  unfold setKey
  by_cases h : (alookup inv k).isSome
  · rw [if_pos h, alookup_map_replace, if_pos h]
  · rw [if_neg h]
    have hn : alookup inv k = none := by
      cases hl : alookup inv k with
      | none => rfl
      | some w =>
        rw [hl] at h
        simp at h
    rw [alookup_append_of_none hn]
    simp [alookup]

lemma alookup_removeKey_self {k : List Nat} (inv : Inventory) :
    alookup (removeKey inv k) k = none := by
  unfold removeKey
  induction inv with
  | nil => rfl
  | cons p rest ih =>
    rcases p with ⟨a, b⟩
    by_cases hak : a = k
    · subst hak
      simpa using ih
    · simp only [List.filter_cons]
      rw [if_pos (by simpa using hak)]
      simp only [alookup, if_neg hak]
      exact ih

lemma alookup_removeKey_other {k k' : List Nat} (hne : k' ≠ k) (inv : Inventory) :
    alookup (removeKey inv k) k' = alookup inv k' := by
  unfold removeKey
  induction inv with
  | nil => rfl
  | cons p rest ih =>
    rcases p with ⟨a, b⟩
    by_cases hak : a = k
    · have hne2 : a ≠ k' := fun h => hne (h.symm.trans hak)
      simp only [List.filter_cons]
      rw [if_neg (by simp [hak])]
      rw [show alookup ((a, b) :: rest) k' = alookup rest k' from by simp [alookup, hne2]]
      exact ih
    · simp only [List.filter_cons]
      rw [if_pos (by simp [hak])]
      simp only [alookup]
      by_cases hk2 : a = k'
      · rw [if_pos hk2, if_pos hk2]
      · rw [if_neg hk2, if_neg hk2]
        exact ih

/-! ## Claim theorems -/

/-- Claim C1: the cost computation is exact: for every treatment-record
list, discount input, and VAT flag, subtotal equals the sum of the entries'
Cost fields, `discount_applied = min(discount_input, subtotal)` (so
`discount_applied ≤ subtotal`), `vat_applied = subtotal * 0.15` when VAT is
enabled and `0` otherwise (computed on the pre-discount subtotal), and
`total = subtotal - discount_applied + vat_applied`; in particular for
subtotal 200, discount input 50, VAT enabled, the result is vat 30,
discount 50, total 180. -/
theorem C1_cost_engine_exact :
    (∀ (treatment_record : List TreatmentEntry) (discount_amount : ℚ) (tax_apply : Bool),
      (cost_summary treatment_record discount_amount tax_apply).total_price
        = (treatment_record.map TreatmentEntry.cost).sum ∧
      (cost_summary treatment_record discount_amount tax_apply).discount_calculation
        = min discount_amount (cost_summary treatment_record discount_amount tax_apply).total_price ∧
      (cost_summary treatment_record discount_amount tax_apply).discount_calculation
        ≤ (cost_summary treatment_record discount_amount tax_apply).total_price ∧
      (cost_summary treatment_record discount_amount tax_apply).tax_calculation
        = (if tax_apply then
            (cost_summary treatment_record discount_amount tax_apply).total_price * (15 / 100)
          else 0) ∧
      (cost_summary treatment_record discount_amount tax_apply).final_calculation
        = (cost_summary treatment_record discount_amount tax_apply).total_price
          - (cost_summary treatment_record discount_amount tax_apply).discount_calculation
          + (cost_summary treatment_record discount_amount tax_apply).tax_calculation) ∧
    cost_summary [⟨strOf "11", some (strOf "Healthy"), strOf "Crown", 200, strOf "Pending",
      strOf "2025-06-01"⟩] 50 true = ⟨200, 50, 30, 180⟩ := by
  constructor
  · intro record d t
    exact ⟨rfl, rfl, min_le_right _ _, rfl, rfl⟩
  · simp only [cost_summary, List.map_cons, List.map_nil, List.sum_cons, List.sum_nil,
      CostSummary.mk.injEq, if_true]
    norm_num [min_def]

/-- Claim C2: for every inventory item with quantity `q`, per-item threshold
`t`, and `days_until_expiry d`, the status classification assigns exactly
one tag, equal to: OutOfStock if `q = 0`, else Expired if `d ≤ 0`, else
LowStock if `q ≤ t`, else ExpiringSoon if `d ≤ 30`, else Normal. -/
theorem C2_status_classification :
    ∀ (quantity threshold : Nat) (days_until_expiry : ℤ),
      item_status quantity threshold days_until_expiry
        = item_status_spec quantity threshold days_until_expiry := by
  intro q t d
  rfl

/-- Claim C4: for every treatment plan, tooth, and procedure: if the plan
already contains an entry with the identical (tooth, procedure) pair,
add_procedure fails and the plan is unchanged (it still contains exactly one
such entry); otherwise a new entry is appended with cost looked up from the
doctor's price_estimates (0 if the procedure is unknown), status "Pending",
and start_date equal to today. -/
theorem C4_add_procedure_duplicate_guard :
    ∀ (treatment_record : List TreatmentEntry) (price_estimates : List (List Nat × ℚ))
      (tooth proc cond today : List Nat),
      ((∃ e ∈ treatment_record, e.tooth = tooth ∧ e.procedure = proc) →
        add_procedure treatment_record price_estimates tooth proc cond today
          = (treatment_record, false)) ∧
      ((treatment_record.countP fun e => e.tooth == tooth && e.procedure == proc) = 1 →
        ((add_procedure treatment_record price_estimates tooth proc cond today).1.countP
          fun e => e.tooth == tooth && e.procedure == proc) = 1) ∧
      ((¬∃ e ∈ treatment_record, e.tooth = tooth ∧ e.procedure = proc) →
        add_procedure treatment_record price_estimates tooth proc cond today
          = (treatment_record ++ [⟨tooth, some cond, proc,
              (alookup price_estimates proc).getD 0, strOf "Pending", today⟩], true)) := by
  intro record prices tooth proc cond today
  have hfilter : (record.filter fun e => e.tooth == tooth && e.procedure == proc) = [] ↔
      ¬∃ e ∈ record, e.tooth = tooth ∧ e.procedure = proc := by
    rw [List.filter_eq_nil_iff]
    simp
  have hdup : (∃ e ∈ record, e.tooth = tooth ∧ e.procedure = proc) →
      add_procedure record prices tooth proc cond today = (record, false) := by
    intro hex
    simp only [add_procedure]
    rw [if_neg]
    intro hemp
    exact hfilter.1 (by simpa [List.isEmpty_iff] using hemp) hex
  refine ⟨hdup, ?_, ?_⟩
  · intro hcount
    have hex : ∃ e ∈ record, e.tooth = tooth ∧ e.procedure = proc := by
      by_contra hno
      have hnil := hfilter.2 hno
      rw [List.countP_eq_length_filter, hnil] at hcount
      simp at hcount
    rw [hdup hex]
    exact hcount
  · intro hno
    simp only [add_procedure]
    rw [if_pos]
    simpa [List.isEmpty_iff] using hfilter.2 hno

/-- Witness for C4 at a concrete input: a plan holding one Cleaning entry on
tooth 11 rejects a second identical add and keeps exactly one entry. -/
theorem C4_add_procedure_duplicate_guard_witness :
    add_procedure
        [⟨strOf "11", some (strOf "Healthy"), strOf "Cleaning", 100, strOf "Pending",
          strOf "2025-06-01"⟩]
        [(strOf "Cleaning", 100)] (strOf "11") (strOf "Cleaning") (strOf "Healthy")
        (strOf "2025-06-02")
      = ([⟨strOf "11", some (strOf "Healthy"), strOf "Cleaning", 100, strOf "Pending",
          strOf "2025-06-01"⟩], false) :=
  (C4_add_procedure_duplicate_guard
      [⟨strOf "11", some (strOf "Healthy"), strOf "Cleaning", 100, strOf "Pending",
        strOf "2025-06-01"⟩]
      [(strOf "Cleaning", 100)] (strOf "11") (strOf "Cleaning") (strOf "Healthy")
      (strOf "2025-06-02")).1
    ⟨⟨strOf "11", some (strOf "Healthy"), strOf "Cleaning", 100, strOf "Pending",
        strOf "2025-06-01"⟩, List.mem_singleton.2 rfl, rfl, rfl⟩

/-- Counterexample to Claim C6 as stated: with the empty item name (the text
input's default, stripped), the derived key is free in the empty inventory,
yet the interactive add creates no record — the name-validation branch
rejects it first. -/
theorem C6_counterexample :
    alookup ([] : Inventory) (item_key (format_item_name []) (strOf "2025-01-01")) = none ∧
    add_items [] [] 1 (strOf "2025-01-01") 5 = (([] : Inventory), false) ∧
    alookup (add_items [] [] 1 (strOf "2025-01-01") 5).1
      (item_key (format_item_name []) (strOf "2025-01-01")) = none :=
  ⟨rfl, rfl, rfl⟩

/-- Claim C6 (amended: the item name, as stripped by the input widget, must
be non-empty): for every inventory state and (name, quantity, expiry,
threshold) input with a non-empty name, if an item already exists under the
derived key slug(normalized name)_expiry, the interactive add fails and the
inventory is unchanged; otherwise a new record is created under that key. -/
theorem C6_add_duplicate_rejection :
    ∀ (inv : Inventory) (name : List Nat) (qty : Nat) (expiry : List Nat) (threshold : Nat),
      name ≠ [] →
      ((alookup inv (item_key (format_item_name name) expiry)).isSome →
        add_items inv name qty expiry threshold = (inv, false)) ∧
      (alookup inv (item_key (format_item_name name) expiry) = none →
        add_items inv name qty expiry threshold
          = (inv ++ [(item_key (format_item_name name) expiry,
              ⟨qty, expiry, threshold, format_item_name name⟩)], true) ∧
        alookup (add_items inv name qty expiry threshold).1
            (item_key (format_item_name name) expiry)
          = some ⟨qty, expiry, threshold, format_item_name name⟩) := by
  intro inv name qty expiry threshold hname
  constructor
  · intro hsome
    simp only [add_items]
    rw [if_neg hname, if_pos hsome]
  · intro hnone
    have hres : add_items inv name qty expiry threshold
        = (inv ++ [(item_key (format_item_name name) expiry,
            ⟨qty, expiry, threshold, format_item_name name⟩)], true) := by
      simp only [add_items]
      rw [if_neg hname, if_neg (by simp [hnone])]
    refine ⟨hres, ?_⟩
    rw [hres]
    rw [show (inv ++ [(item_key (format_item_name name) expiry,
        (⟨qty, expiry, threshold, format_item_name name⟩ : StockItem))], true).1
        = inv ++ [(item_key (format_item_name name) expiry,
        (⟨qty, expiry, threshold, format_item_name name⟩ : StockItem))] from rfl]
    rw [alookup_append_of_none hnone]
    exact alookup_singleton_self _ _

/-- Witness for C6 at a concrete input: adding Gloves twice with the same
expiry; the second add fails and leaves the inventory unchanged. -/
theorem C6_add_duplicate_rejection_witness :
    add_items [(item_key (format_item_name (strOf "Gloves")) (strOf "2025-01-01"),
        ⟨3, strOf "2025-01-01", 5, format_item_name (strOf "Gloves")⟩)]
      (strOf "Gloves") 4 (strOf "2025-01-01") 5
      = ([(item_key (format_item_name (strOf "Gloves")) (strOf "2025-01-01"),
          ⟨3, strOf "2025-01-01", 5, format_item_name (strOf "Gloves")⟩)], false) :=
  (C6_add_duplicate_rejection
      [(item_key (format_item_name (strOf "Gloves")) (strOf "2025-01-01"),
        ⟨3, strOf "2025-01-01", 5, format_item_name (strOf "Gloves")⟩)]
      (strOf "Gloves") 4 (strOf "2025-01-01") 5 (by decide)).1 (by decide)

/-- Claim C7: for every inventory item edit: if the new expiry leaves the
derived key unchanged, the record is updated in place under the same key and
no second record is created; if the expiry changes the derived key and the
new key already exists, the edit fails and neither record is modified; if
the key changes and is free, a record is written under the new key and the
record under the old key is deleted, with the display name preserved
as-is. -/
theorem C7_edit_rekeying :
    ∀ (inv : Inventory) (edit_item : List Nat) (d : StockItem) (q : Nat)
      (new_expiry : List Nat) (t : Nat),
      alookup inv edit_item = some d →
      (item_key d.display_name new_expiry = edit_item →
        handle_item_editing inv edit_item q new_expiry t
          = (setKey inv edit_item ⟨q, new_expiry, t, d.display_name⟩, true) ∧
        (handle_item_editing inv edit_item q new_expiry t).1.map Prod.fst
          = inv.map Prod.fst ∧
        alookup (handle_item_editing inv edit_item q new_expiry t).1 edit_item
          = some ⟨q, new_expiry, t, d.display_name⟩) ∧
      (item_key d.display_name new_expiry ≠ edit_item →
        (alookup inv (item_key d.display_name new_expiry)).isSome →
        handle_item_editing inv edit_item q new_expiry t = (inv, false)) ∧
      (item_key d.display_name new_expiry ≠ edit_item →
        alookup inv (item_key d.display_name new_expiry) = none →
        (handle_item_editing inv edit_item q new_expiry t).2 = true ∧
        alookup (handle_item_editing inv edit_item q new_expiry t).1
            (item_key d.display_name new_expiry)
          = some ⟨q, new_expiry, t, d.display_name⟩ ∧
        alookup (handle_item_editing inv edit_item q new_expiry t).1 edit_item = none) := by
  intro inv edit_item d q new_expiry t hd
  refine ⟨?_, ?_, ?_⟩
  · intro heq
    have hres : handle_item_editing inv edit_item q new_expiry t
        = (setKey inv edit_item ⟨q, new_expiry, t, d.display_name⟩, true) := by
      simp only [handle_item_editing, hd]
      rw [if_neg (not_not_intro heq)]
    refine ⟨hres, ?_, ?_⟩
    · rw [hres]
      exact keys_setKey_present (by simp [hd])
    · rw [hres]
      exact alookup_setKey_self inv
  · intro hne hsome
    simp only [handle_item_editing, hd]
    rw [if_pos hne, if_pos hsome]
  · intro hne hnone
    have hres : handle_item_editing inv edit_item q new_expiry t
        = (removeKey (setKey inv (item_key d.display_name new_expiry)
            ⟨q, new_expiry, t, d.display_name⟩) edit_item, true) := by
      simp only [handle_item_editing, hd]
      rw [if_pos hne, if_neg (by simp [hnone])]
    refine ⟨by rw [hres], ?_, ?_⟩
    · rw [hres]
      rw [show (removeKey (setKey inv (item_key d.display_name new_expiry)
          ⟨q, new_expiry, t, d.display_name⟩) edit_item, true).1
          = removeKey (setKey inv (item_key d.display_name new_expiry)
          ⟨q, new_expiry, t, d.display_name⟩) edit_item from rfl]
      rw [alookup_removeKey_other hne]
      exact alookup_setKey_self inv
    · rw [hres]
      exact alookup_removeKey_self _

/-- Witness for C7 at a concrete input: editing the Gloves record without
changing its expiry keeps the key set unchanged. -/
theorem C7_edit_rekeying_witness :
    alookup ([(item_key (strOf "Gloves") (strOf "2025-01-01"),
        (⟨3, strOf "2025-01-01", 5, strOf "Gloves"⟩ : StockItem))] : Inventory)
      (item_key (strOf "Gloves") (strOf "2025-01-01"))
      = some (⟨3, strOf "2025-01-01", 5, strOf "Gloves"⟩ : StockItem) ∧
    (handle_item_editing [(item_key (strOf "Gloves") (strOf "2025-01-01"),
        ⟨3, strOf "2025-01-01", 5, strOf "Gloves"⟩)]
      (item_key (strOf "Gloves") (strOf "2025-01-01")) 7 (strOf "2025-01-01") 5).1.map Prod.fst
      = ([(item_key (strOf "Gloves") (strOf "2025-01-01"),
        (⟨3, strOf "2025-01-01", 5, strOf "Gloves"⟩ : StockItem))] : Inventory).map Prod.fst :=
  ⟨by decide,
    ((C7_edit_rekeying [(item_key (strOf "Gloves") (strOf "2025-01-01"),
        ⟨3, strOf "2025-01-01", 5, strOf "Gloves"⟩)]
      (item_key (strOf "Gloves") (strOf "2025-01-01"))
      ⟨3, strOf "2025-01-01", 5, strOf "Gloves"⟩ 7 (strOf "2025-01-01") 5
      (by decide)).1 rfl).2.1⟩

/-- Claim C3: the inventory listing is sorted ascending by the fixed
status-priority table Expired=0, OutOfStock=1, LowStock=2, ExpiringSoon=3,
Normal=4 (most urgent first): in the displayed order, any row with a
strictly smaller priority precedes any row with a larger one — in
particular every Expired item precedes every OutOfStock item — and for the
spec's example (an out-of-stock item expiring in 10 days, an already-expired
item with quantity 5, and a Normal item) the sorted order is Expired,
OutOfStock, Normal. -/
theorem C3_listing_sort_order :
    (status_priority Status.Expired = 0 ∧ status_priority Status.OutOfStock = 1 ∧
     status_priority Status.LowStock = 2 ∧ status_priority Status.ExpiringSoon = 3 ∧
     status_priority Status.Normal = 4) ∧
    (∀ l : List InvRecord, (show_inventory_sorted l).Perm l) ∧
    (∀ (l : List InvRecord) (i j : Fin (show_inventory_sorted l).length),
      status_priority (recStatus ((show_inventory_sorted l).get i))
        < status_priority (recStatus ((show_inventory_sorted l).get j)) → i < j) ∧
    (∀ (l : List InvRecord) (i j : Fin (show_inventory_sorted l).length),
      recStatus ((show_inventory_sorted l).get i) = Status.Expired →
      recStatus ((show_inventory_sorted l).get j) = Status.OutOfStock → i < j) ∧
    show_inventory_sorted [⟨0, 5, 10⟩, ⟨50, 5, 100⟩, ⟨5, 5, -3⟩]
      = [⟨5, 5, -3⟩, ⟨0, 5, 10⟩, ⟨50, 5, 100⟩] := by
  have hmono : ∀ (l : List InvRecord) (i j : Fin (show_inventory_sorted l).length),
      status_priority (recStatus ((show_inventory_sorted l).get i))
        < status_priority (recStatus ((show_inventory_sorted l).get j)) → i < j := by
    intro l i j hlt
    rcases lt_trichotomy i j with h | h | h
    · exact h
    · subst h
      exact absurd hlt (lt_irrefl _)
    · have hrel : prioLE ((show_inventory_sorted l).get j) ((show_inventory_sorted l).get i) :=
        (List.sorted_insertionSort prioLE l).rel_get_of_lt h
      exact absurd hlt (not_lt.2 hrel)
  refine ⟨⟨rfl, rfl, rfl, rfl, rfl⟩, ?_, hmono, ?_, by decide⟩
  · intro l
    exact List.perm_insertionSort prioLE l
  · intro l i j hi hj
    apply hmono
    rw [hi, hj]
    decide

/-- Witness for C3 at the spec's example: the expired item sits strictly
before the out-of-stock item in the sorted listing. -/
theorem C3_listing_sort_order_witness :
    (⟨0, by decide⟩ : Fin (show_inventory_sorted
        [⟨0, 5, 10⟩, ⟨50, 5, 100⟩, ⟨5, 5, -3⟩]).length)
      < ⟨1, by decide⟩ :=
  C3_listing_sort_order.2.2.2.1 [⟨0, 5, 10⟩, ⟨50, 5, 100⟩, ⟨5, 5, -3⟩]
    ⟨0, by decide⟩ ⟨1, by decide⟩ (by decide) (by decide)

/-- Claim C8: the expiry-alert state machine sends at most one automatic
email per armed period: a send occurs exactly when the expiring set is
non-empty, alerts are enabled, an email is configured and the flag is
clear; a send sets the flag; the flag resets exactly on an empty expiring
set or an inventory/settings mutation; and after send → empty → new
expiring item the machine performs exactly one more send (two sends over
the five-step trace). -/
theorem C8_alert_state_machine :
    (∀ (sent ne en em : Bool),
      (display_alerts_step sent (AlertEvent.evaluate ne en em)).2 = true ↔
        (ne = true ∧ en = true ∧ em = true ∧ sent = false)) ∧
    (∀ (sent : Bool) (e : AlertEvent),
      (display_alerts_step sent e).2 = true → (display_alerts_step sent e).1 = true) ∧
    (∀ (sent en em : Bool),
      (display_alerts_step sent (AlertEvent.evaluate false en em)).1 = false) ∧
    (∀ sent : Bool, display_alerts_step sent AlertEvent.mutate = (false, false)) ∧
    (∀ (en em : Bool),
      (display_alerts_step true (AlertEvent.evaluate true en em)).1 = true) ∧
    runAlerts false
      [AlertEvent.evaluate true true true, AlertEvent.evaluate true true true,
       AlertEvent.evaluate false true true, AlertEvent.evaluate true true true,
       AlertEvent.evaluate true true true] = (true, 2) := by
  refine ⟨?_, ?_, ?_, fun sent => rfl, ?_, by decide⟩
  · intro sent ne en em
    cases sent <;> cases ne <;> cases en <;> cases em <;> simp [display_alerts_step]
  · intro sent e
    cases e with
    | evaluate ne en em =>
      cases sent <;> cases ne <;> cases en <;> cases em <;> simp [display_alerts_step]
    | mutate => simp [display_alerts_step]
  · intro sent en em
    cases sent <;> simp [display_alerts_step]
  · intro en em
    cases en <;> cases em <;> simp [display_alerts_step]

/-- Witness for C8 at a concrete input: from the clear state with items
expiring, alerts enabled and an email configured, the step sends and sets
the flag. -/
theorem C8_alert_state_machine_witness :
    (display_alerts_step false (AlertEvent.evaluate true true true)).2 = true ∧
    (display_alerts_step false (AlertEvent.evaluate true true true)).1 = true :=
  ⟨by decide, C8_alert_state_machine.2.1 false (AlertEvent.evaluate true true true) (by decide)⟩

/-- Claim C9: the name normalization capitalizes each whitespace-separated
word that is entirely lowercase and preserves verbatim each word containing
any uppercase letter; in particular "dental FLOSS" normalizes to
"Dental FLOSS". -/
theorem C9_name_normalization :
    (∀ (s w : List Nat), w ∈ splitWS s →
      ((∀ c ∈ w, 97 ≤ c ∧ c ≤ 122) → fmtWord w = pyCapitalize w) ∧
      ((∃ c ∈ w, 65 ≤ c ∧ c ≤ 90) → fmtWord w = w)) ∧
    (∀ s : List Nat, format_item_name s = joinSpace ((splitWS s).map fmtWord)) ∧
    format_item_name (strOf "dental FLOSS") = strOf "Dental FLOSS" := by
  refine ⟨?_, fun s => rfl, by decide⟩
  intro s w _
  constructor
  · intro hlow
    apply fmtWord_eq_cap
    have hnoup : ∀ c ∈ w, ¬(65 ≤ c ∧ c ≤ 90) := by
      intro c hc
      have := hlow c hc
      omega
    exact (pyLower_eq_self_of_no_upper hnoup).symm
  · intro hup
    exact fmtWord_eq_self fun h => pyLower_ne_self_of_upper hup h.symm

/-- Witness for C9 at a concrete input: the word "FLOSS" of
"dental FLOSS" contains uppercase letters and is preserved verbatim. -/
theorem C9_name_normalization_witness :
    fmtWord (strOf "FLOSS") = strOf "FLOSS" :=
  (C9_name_normalization.1 (strOf "dental FLOSS") (strOf "FLOSS") (by decide)).2 (by decide)

/-- Claim C10: name normalization is idempotent: re-normalizing an
already-normalized display name never changes it, so the derived inventory
key is stable. -/
theorem C10_format_idempotent :
    ∀ s : List Nat, format_item_name (format_item_name s) = format_item_name s := by
  intro s
  show joinSpace ((splitWS (format_item_name s)).map fmtWord) = format_item_name s
  rw [splitWS_format, List.map_map]
  have h2 : (splitWS s).map (fmtWord ∘ fmtWord) = (splitWS s).map fmtWord :=
    List.map_congr_left fun w _ => fmtWord_idem w
  rw [h2]
  rfl

/-- Claim C5 evaluated at its failing input: the management-form submission
reads each surviving row's status from session state under
`status_{key_id}`, but the widget that would create that key is commented
out (src/app/pages/1_Treatment.py lines 399-406 versus line 466), so the
lookup raises KeyError for any submission with a surviving row and no
updated list is produced; only a submission deleting every row avoids the
lookup. -/
theorem C5_bulk_update_keyerror :
    bulk_update
        [(⟨strOf "11", some (strOf "Healthy"), strOf "Cleaning", 100, strOf "Pending",
            strOf "2025-06-01"⟩,
          ⟨strOf "Cleaning", strOf "2025-06-02", none⟩)]
        [(strOf "Cleaning", 100)] [] = Except.error () ∧
    bulk_update
        [(⟨strOf "11", some (strOf "Healthy"), strOf "Cleaning", 100, strOf "Pending",
            strOf "2025-06-01"⟩,
          ⟨strOf "Cleaning", strOf "2025-06-02", none⟩)]
        [(strOf "Cleaning", 100)] [0] = Except.ok [] :=
  ⟨rfl, rfl⟩

end DentistFriend
